import Mathlib

namespace ClearUp

/- Shallow embedding of the ledger and balance engine of the clear-up-share
   backend (backend/handler/group_handler.go together with the expense handler
   file containing AddExpense / EditExpense / DeleteExpense).

   Modelling conventions:
   * Monetary amounts (Go float64) are modelled as exact rationals.
   * Dates and creation timestamps (Go time.Time) are modelled as naturals on
     one common comparable scale; date-string parsing is not modelled, a
     handler input carries an already parsed date.
   * The GORM store is a record of lists; a transaction is a copy of the
     store that is committed (returned) or rolled back (the original store is
     returned).  Each write inside a transaction carries an index, and an
     explicit failure schedule (the list of indices whose write fails) models
     database write failures.
   * Go maps with float64 values read 0 for an absent key and create the
     entry on `+=`; the balance accumulator is therefore a total function
     starting at the constant 0.
   * Go map iteration order is unspecified; the embedding uses the first
     occurrence order of the group membership list (`List.dedup`). -/

structure User where
  id : Nat
  username : String
deriving Repr, DecidableEq

structure Group where
  id : Nat
  name : String
  ownerID : Nat
deriving Repr, DecidableEq

structure Membership where
  userID : Nat
  groupID : Nat
deriving Repr, DecidableEq

structure Expense where
  id : Nat
  groupID : Nat
  payerID : Nat
  amount : ℚ
  description : String
  date : Nat
deriving Repr, DecidableEq

structure Split where
  expenseID : Nat
  debtorID : Nat
  amountDue : ℚ
deriving Repr, DecidableEq

structure Settlement where
  id : Nat
  groupID : Nat
  payerID : Nat
  receiverID : Nat
  amount : ℚ
  createdAt : Nat
deriving Repr, DecidableEq

structure Store where
  users : List User
  groups : List Group
  memberships : List Membership
  expenses : List Expense
  splits : List Split
  settlements : List Settlement
  nextGroupID : Nat
  nextExpenseID : Nat
  nextSettlementID : Nat
deriving Repr, DecidableEq

/-- The membership lookup `database.DB.Where("user_id = ? AND group_id = ?", uid, gid)`. -/
def hasMembership (st : Store) (uid gid : Nat) : Bool :=
  st.memberships.any (fun m => m.userID == uid && m.groupID == gid)

/-- `Preload("User")` followed by reading `.Username`; a missing user row gives
    the zero value, i.e. the empty string. -/
def usernameOf (st : Store) (uid : Nat) : String :=
  match st.users.find? (fun u => u.id == uid) with
  | some u => u.username
  | none => ""

inductive Err where
  | forbidden
  | invalidInput
  | badRequest (msg : String)
  | notFound
  | internalError
deriving Repr, DecidableEq

/-- `AddExpenseInput` with the date already parsed. -/
structure AddExpenseInput where
  description : String
  amount : ℚ
  payerID : Nat
  date : Nat
  memberIDs : List Nat
deriving Repr, DecidableEq

/-- The gin binding tags of `AddExpenseInput`: `required` on the strings and
    ids (a zero value fails), `gt=0` on the amount, `min=1` on the list. -/
def bindAddExpense (i : AddExpenseInput) : Bool :=
  i.description != "" && decide (0 < i.amount) && (i.payerID != 0) && decide (1 ≤ i.memberIDs.length)

structure AddSettlementInput where
  payerID : Nat
  receiverID : Nat
  amount : ℚ
deriving Repr, DecidableEq

def bindAddSettlement (i : AddSettlementInput) : Bool :=
  (i.payerID != 0) && (i.receiverID != 0) && decide (0 < i.amount)

structure CreateGroupInput where
  name : String
deriving Repr, DecidableEq

/-- The split creation loop of AddExpense / EditExpense: one `tx.Create(&split)`
    per member id, write index `i` onward; a scheduled failure rolls back. -/
def createSplits (eid : Nat) (share : ℚ) (fails : List Nat) :
    List Nat → Store → Nat → Option Store
  | [], tx, _ => some tx
  | m :: rest, tx, i =>
    if i ∈ fails then none
    else createSplits eid share fails rest
      { tx with splits := tx.splits ++ [⟨eid, m, share⟩] } (i + 1)

/-- POST /groups/:groupID/expenses.  Write 0 is the Expense row, writes 1..n
    the Split rows; all inside one transaction. -/
def AddExpense (st : Store) (callerID gid : Nat) (input : AddExpenseInput)
    (fails : List Nat) : Except Err Expense × Store :=
  if hasMembership st callerID gid then
    if bindAddExpense input then
      if 0 ∈ fails then (.error .internalError, st)
      else
        match createSplits st.nextExpenseID (input.amount / (input.memberIDs.length : ℚ))
            fails input.memberIDs
            { st with
              expenses := st.expenses ++
                [⟨st.nextExpenseID, gid, input.payerID, input.amount,
                  input.description, input.date⟩],
              nextExpenseID := st.nextExpenseID + 1 } 1 with
        | none => (.error .internalError, st)
        | some tx2 =>
          (.ok ⟨st.nextExpenseID, gid, input.payerID, input.amount,
            input.description, input.date⟩, tx2)
    else (.error .invalidInput, st)
  else (.error .forbidden, st)

/-- PUT /groups/:groupID/expenses/:expenseID.  Write 0 deletes the old splits,
    write 1 saves the expense, writes 2.. create the new splits. -/
def EditExpense (st : Store) (callerID gid eid : Nat) (input : AddExpenseInput)
    (fails : List Nat) : Except Err Expense × Store :=
  if hasMembership st callerID gid then
    match st.expenses.find? (fun e => e.id == eid && e.groupID == gid) with
    | none => (.error .notFound, st)
    | some e0 =>
      if bindAddExpense input then
        if 0 ∈ fails then (.error .internalError, st)
        else if 1 ∈ fails then (.error .internalError, st)
        else
          match createSplits eid (input.amount / (input.memberIDs.length : ℚ))
              fails input.memberIDs
              { st with
                splits := st.splits.filter (fun s => s.expenseID != eid),
                expenses := st.expenses.map (fun e => if e.id == eid then
                  { e0 with payerID := input.payerID, amount := input.amount,
                            description := input.description, date := input.date } else e) } 2 with
          | none => (.error .internalError, st)
          | some tx3 =>
            (.ok { e0 with payerID := input.payerID, amount := input.amount,
                           description := input.description, date := input.date }, tx3)
      else (.error .invalidInput, st)
  else (.error .forbidden, st)

/-- DELETE /groups/:groupID/expenses/:expenseID.  Write 0 deletes the splits,
    write 1 the expense row. -/
def DeleteExpense (st : Store) (callerID gid eid : Nat) (fails : List Nat) :
    Except Err Unit × Store :=
  if hasMembership st callerID gid then
    match st.expenses.find? (fun e => e.id == eid && e.groupID == gid) with
    | none => (.error .notFound, st)
    | some _ =>
      if 0 ∈ fails then (.error .internalError, st)
      else if 1 ∈ fails then (.error .internalError, st)
      else (.ok (), { st with
        splits := st.splits.filter (fun s => s.expenseID != eid),
        expenses := st.expenses.filter (fun e => e.id != eid) })
  else (.error .forbidden, st)

/-- POST /groups/:groupID/settlements.  A single row write taking the current
    time as the row creation timestamp. -/
def RecordSettlement (st : Store) (callerID gid : Nat) (input : AddSettlementInput)
    (now : Nat) (fail : Bool) : Except Err Settlement × Store :=
  if hasMembership st callerID gid then
    if bindAddSettlement input then
      if input.payerID == input.receiverID then
        (.error (.badRequest "Payer and receiver cannot be the same"), st)
      else if hasMembership st input.payerID gid then
        if hasMembership st input.receiverID gid then
          if fail then (.error .internalError, st)
          else
            (.ok ⟨st.nextSettlementID, gid, input.payerID, input.receiverID, input.amount, now⟩,
             { st with
               settlements := st.settlements ++
                 [(⟨st.nextSettlementID, gid, input.payerID, input.receiverID,
                   input.amount, now⟩ : Settlement)],
               nextSettlementID := st.nextSettlementID + 1 })
        else (.error (.badRequest "Receiver is not a member of this group"), st)
      else (.error (.badRequest "Payer is not a member of this group"), st)
    else (.error .invalidInput, st)
  else (.error .forbidden, st)

/-- POST /groups.  Write 0 is the group row, write 1 the owner membership. -/
def CreateGroup (st : Store) (callerID : Nat) (input : CreateGroupInput)
    (fails : List Nat) : Except Err Group × Store :=
  if input.name != "" then
    if 0 ∈ fails then (.error .internalError, st)
    else if 1 ∈ fails then (.error .internalError, st)
    else (.ok ⟨st.nextGroupID, input.name, callerID⟩,
      { st with groups := st.groups ++ [⟨st.nextGroupID, input.name, callerID⟩],
                memberships := st.memberships ++ [⟨callerID, st.nextGroupID⟩],
                nextGroupID := st.nextGroupID + 1 })
  else (.error .invalidInput, st)

/-- The distinct member user ids of a group, in first occurrence order
    (the key set of the Go `memberMap`). -/
def groupMemberIDs (st : Store) (gid : Nat) : List Nat :=
  ((st.memberships.filter (fun m => m.groupID == gid)).map (fun m => m.userID)).dedup

def groupExpenses (st : Store) (gid : Nat) : List Expense :=
  st.expenses.filter (fun e => e.groupID == gid)

def groupExpenseIDs (st : Store) (gid : Nat) : List Nat :=
  (groupExpenses st gid).map (fun e => e.id)

/-- `expense_id IN expenseIDs`: the splits of the group's expenses. -/
def groupSplits (st : Store) (gid : Nat) : List Split :=
  st.splits.filter (fun s => (groupExpenseIDs st gid).contains s.expenseID)

def groupSettlements (st : Store) (gid : Nat) : List Settlement :=
  st.settlements.filter (fun t => t.groupID == gid)

/-- A Go map write `balances[k] = v`. -/
def mapUpd (b : Nat → ℚ) (k : Nat) (v : ℚ) : Nat → ℚ :=
  fun x => if x = k then v else b x

/-- `balances[e.PayerID] += e.Amount`. -/
def payStep (b : Nat → ℚ) (e : Expense) : Nat → ℚ :=
  mapUpd b e.payerID (b e.payerID + e.amount)

/-- `balances[s.DebtorID] -= s.AmountDue`. -/
def oweStep (b : Nat → ℚ) (s : Split) : Nat → ℚ :=
  mapUpd b s.debtorID (b s.debtorID - s.amountDue)

/-- `balances[t.PayerID] -= t.Amount; balances[t.ReceiverID] += t.Amount`. -/
def settleStep (b : Nat → ℚ) (t : Settlement) : Nat → ℚ :=
  let b1 := mapUpd b t.payerID (b t.payerID - t.amount)
  mapUpd b1 t.receiverID (b1 t.receiverID + t.amount)

/-- The balance accumulator of GetGroupDebts after the three aggregation loops. -/
def groupBalances (st : Store) (gid : Nat) : Nat → ℚ :=
  let b1 := (groupExpenses st gid).foldl payStep (fun _ => 0)
  let b2 := (groupSplits st gid).foldl oweStep b1
  (groupSettlements st gid).foldl settleStep b2

structure DebtSummary where
  userID : Nat
  username : String
  balance : ℚ
deriving Repr, DecidableEq

/-- GET /groups/:groupID/debts. -/
def GetGroupDebts (st : Store) (callerID gid : Nat) : Except Err (List DebtSummary) :=
  if hasMembership st callerID gid then
    .ok ((groupMemberIDs st gid).map (fun u => ⟨u, usernameOf st u, groupBalances st gid u⟩))
  else .error .forbidden

inductive HistType where
  | expense
  | settlement
deriving Repr, DecidableEq

structure HistoryItem where
  id : Nat
  type : HistType
  date : Nat
  amount : ℚ
  description : String
  payerID : Nat
  payerName : String
  receiverID : Nat
  receiverName : String
deriving Repr, DecidableEq

def expenseItem (st : Store) (e : Expense) : HistoryItem :=
  ⟨e.id, .expense, e.date, e.amount, e.description, e.payerID, usernameOf st e.payerID, 0, ""⟩

def settlementItem (st : Store) (t : Settlement) : HistoryItem :=
  ⟨t.id, .settlement, t.createdAt, t.amount, "", t.payerID, usernameOf st t.payerID,
    t.receiverID, usernameOf st t.receiverID⟩

/-- Date-descending comparison; `sort.Slice` with `Date.After` is an
    unstable sort, the embedding determinises it with an insertion sort for
    this total relation. -/
def histLE (a b : HistoryItem) : Prop := b.date ≤ a.date

instance : DecidableRel histLE :=
  fun a b => inferInstanceAs (Decidable (b.date ≤ a.date))

instance : IsTotal HistoryItem histLE :=
  ⟨fun a b => (Nat.le_total b.date a.date).elim Or.inl Or.inr⟩

instance : IsTrans HistoryItem histLE :=
  ⟨fun _ _ _ h1 h2 => Nat.le_trans h2 h1⟩

/-- GET /groups/:groupID/history. -/
def GetGroupHistory (st : Store) (callerID gid : Nat) : Except Err (List HistoryItem) :=
  if hasMembership st callerID gid then
    let eItems := (st.expenses.filter (fun e => e.groupID == gid)).map (expenseItem st)
    let sItems := (st.settlements.filter (fun t => t.groupID == gid)).map (settlementItem st)
    .ok (List.insertionSort histLE (eItems ++ sItems))
  else .error .forbidden

/-- One engine request, carrying its failure schedule. -/
inductive Op where
  | createGroup (callerID : Nat) (input : CreateGroupInput) (fails : List Nat)
  | addExpense (callerID gid : Nat) (input : AddExpenseInput) (fails : List Nat)
  | editExpense (callerID gid eid : Nat) (input : AddExpenseInput) (fails : List Nat)
  | deleteExpense (callerID gid eid : Nat) (fails : List Nat)
  | recordSettlement (callerID gid : Nat) (input : AddSettlementInput) (now : Nat) (fail : Bool)

def step (st : Store) : Op → Store
  | .createGroup c i f => (CreateGroup st c i f).2
  | .addExpense c g i f => (AddExpense st c g i f).2
  | .editExpense c g e i f => (EditExpense st c g e i f).2
  | .deleteExpense c g e f => (DeleteExpense st c g e f).2
  | .recordSettlement c g i n f => (RecordSettlement st c g i n f).2

def run (st : Store) (ops : List Op) : Store := ops.foldl step st

/-- The splits recorded for one expense id, summed. -/
def expenseSplitSum (st : Store) (eid : Nat) : ℚ :=
  ((st.splits.filter (fun s => s.expenseID == eid)).map (fun s => s.amountDue)).sum

/-- Store well-formedness, established by the schema and preserved by every
    handler: primary keys are unique and below the id counter, splits
    reference existing expenses, the splits of an expense sum to its amount,
    and settlements name group members (they are validated at creation and
    memberships are never removed). -/
structure WF (st : Store) : Prop where
  idsNodup : (st.expenses.map (fun e => e.id)).Nodup
  idsLt : ∀ e ∈ st.expenses, e.id < st.nextExpenseID
  splitsRef : ∀ s ∈ st.splits, ∃ e ∈ st.expenses, s.expenseID = e.id
  splitSums : ∀ e ∈ st.expenses, expenseSplitSum st e.id = e.amount
  settleMembers : ∀ t ∈ st.settlements,
    hasMembership st t.payerID t.groupID = true ∧ hasMembership st t.receiverID t.groupID = true

/-- The 5-step reference reduction worded in the specification: start from 0,
    add each group expense's amount to its payer, subtract each split's
    amountDue from its debtor, subtract each group settlement's amount from
    its payer and add it to its receiver. -/
def refBalance (st : Store) (gid u : Nat) : ℚ :=
  (((groupExpenses st gid).filter (fun e => e.payerID == u)).map (fun e => e.amount)).sum
    - (((groupSplits st gid).filter (fun s => s.debtorID == u)).map (fun s => s.amountDue)).sum
    - (((groupSettlements st gid).filter (fun t => t.payerID == u)).map (fun t => t.amount)).sum
    + (((groupSettlements st gid).filter (fun t => t.receiverID == u)).map (fun t => t.amount)).sum

/-- Step 5 of the reference reduction: one (member, balance) pair per group
    member, zero balances included. -/
def refDebts (st : Store) (gid : Nat) : List DebtSummary :=
  (groupMemberIDs st gid).map (fun u => ⟨u, usernameOf st u, refBalance st gid u⟩)

/-! ### Pointwise characterisation of the balance folds -/

theorem payStep_apply (b : Nat → ℚ) (e : Expense) (u : Nat) :
    payStep b e u = b u + (if e.payerID = u then e.amount else 0) := by
  unfold payStep mapUpd
  by_cases h : u = e.payerID
  · subst h; simp
  · rw [if_neg h, if_neg (fun hh => h hh.symm)]; ring

theorem oweStep_apply (b : Nat → ℚ) (s : Split) (u : Nat) :
    oweStep b s u = b u - (if s.debtorID = u then s.amountDue else 0) := by
  unfold oweStep mapUpd
  by_cases h : u = s.debtorID
  · subst h; simp
  · rw [if_neg h, if_neg (fun hh => h hh.symm)]; ring

theorem settleStep_apply (b : Nat → ℚ) (t : Settlement) (u : Nat) :
    settleStep b t u
      = b u + (if t.receiverID = u then t.amount else 0)
          - (if t.payerID = u then t.amount else 0) := by
  unfold settleStep mapUpd
  by_cases h1 : u = t.receiverID
  · by_cases h2 : u = t.payerID
    · rw [if_pos h1, if_pos (h1.symm.trans h2), if_pos h1.symm, if_pos h2.symm, ← h2]
      ring
    · rw [if_pos h1, if_neg (fun hh => h2 (h1.trans hh)), if_pos h1.symm,
        if_neg (fun hh => h2 hh.symm), ← h1]
      ring
  · by_cases h2 : u = t.payerID
    · rw [if_neg h1, if_pos h2, if_neg (fun hh => h1 hh.symm), if_pos h2.symm, ← h2]
      ring
    · rw [if_neg h1, if_neg h2, if_neg (fun hh => h1 hh.symm),
        if_neg (fun hh => h2 hh.symm)]
      ring

theorem payFold (es : List Expense) : ∀ (b : Nat → ℚ) (u : Nat),
    es.foldl payStep b u
      = b u + ((es.filter (fun e => e.payerID == u)).map (fun e => e.amount)).sum := by
  induction es with
  | nil => intro b u; simp
  | cons e es ih =>
    intro b u
    rw [List.foldl_cons, ih, payStep_apply]
    by_cases h : e.payerID = u <;> simp [List.filter_cons, h] <;> ring

theorem oweFold (ss : List Split) : ∀ (b : Nat → ℚ) (u : Nat),
    ss.foldl oweStep b u
      = b u - ((ss.filter (fun s => s.debtorID == u)).map (fun s => s.amountDue)).sum := by
  induction ss with
  | nil => intro b u; simp
  | cons s ss ih =>
    intro b u
    rw [List.foldl_cons, ih, oweStep_apply]
    by_cases h : s.debtorID = u <;> simp [List.filter_cons, h] <;> ring

theorem settleFold (ts : List Settlement) : ∀ (b : Nat → ℚ) (u : Nat),
    ts.foldl settleStep b u
      = b u + ((ts.filter (fun t => t.receiverID == u)).map (fun t => t.amount)).sum
          - ((ts.filter (fun t => t.payerID == u)).map (fun t => t.amount)).sum := by
  induction ts with
  | nil => intro b u; simp
  | cons t ts ih =>
    intro b u
    rw [List.foldl_cons, ih, settleStep_apply]
    by_cases h1 : t.receiverID = u <;> by_cases h2 : t.payerID = u <;>
      simp [List.filter_cons, h1, h2] <;> ring

/-- The balance the aggregation loops of GetGroupDebts compute for one user is
    exactly the reference reduction of the specification. -/
theorem groupBalances_apply (st : Store) (gid u : Nat) :
    groupBalances st gid u = refBalance st gid u := by
  unfold groupBalances refBalance
  rw [settleFold, oweFold, payFold]
  ring

/-! ### Summation helpers -/

theorem sum_map_zeroQ {α : Type} (l : List α) : (l.map (fun _ => (0 : ℚ))).sum = 0 := by
  induction l with
  | nil => simp
  | cons x l ih => simp [ih]

theorem sum_map_addQ {α : Type} (f g : α → ℚ) (l : List α) :
    (l.map (fun x => f x + g x)).sum = (l.map f).sum + (l.map g).sum := by
  induction l with
  | nil => simp
  | cons x l ih => simp [ih]; ring

theorem sum_map_combo {α : Type} (A B C D : α → ℚ) (l : List α) :
    (l.map (fun x => A x - B x - C x + D x)).sum
      = (l.map A).sum - (l.map B).sum - (l.map C).sum + (l.map D).sum := by
  induction l with
  | nil => simp
  | cons x l ih => simp [ih]; ring

theorem sum_map_ite_notMem (k : Nat) (c : ℚ) (ks : List Nat) (h : k ∉ ks) :
    (ks.map (fun x => if k = x then c else 0)).sum = 0 := by
  induction ks with
  | nil => simp
  | cons a ks ih =>
    have h1 : ¬ k = a := fun hh => h (by simp [hh])
    have h2 : k ∉ ks := fun hk => h (by simp [hk])
    simp [h1, ih h2]

theorem sum_map_ite_mem (k : Nat) (c : ℚ) (ks : List Nat) (hnd : ks.Nodup) (hk : k ∈ ks) :
    (ks.map (fun x => if k = x then c else 0)).sum = c := by
  induction ks with
  | nil => cases hk
  | cons a ks ih =>
    rcases List.nodup_cons.mp hnd with ⟨ha, hks⟩
    rcases List.mem_cons.mp hk with h | h
    · rw [List.map_cons, List.sum_cons, if_pos h, sum_map_ite_notMem k c ks (h.symm ▸ ha)]
      ring
    · have h1 : ¬ k = a := fun hh => ha (hh ▸ h)
      rw [List.map_cons, List.sum_cons, if_neg h1, ih hks h]
      ring

/-- Splitting a sum over a list into per-key sums, for a key list that is
    duplicate free and covers every element. -/
theorem sum_filter_key {α : Type} (key : α → Nat) (val : α → ℚ) (l : List α) (ks : List Nat)
    (hnd : ks.Nodup) (hcov : ∀ x ∈ l, key x ∈ ks) :
    (ks.map (fun k => ((l.filter (fun x => key x == k)).map val).sum)).sum
      = (l.map val).sum := by
  induction l with
  | nil => simp [sum_map_zeroQ]
  | cons x l ih =>
    have hx : key x ∈ ks := hcov x (List.mem_cons_self x l)
    have hl : ∀ y ∈ l, key y ∈ ks := fun y hy => hcov y (List.mem_cons_of_mem x hy)
    have expand : ∀ k ∈ ks, (((x :: l).filter (fun y => key y == k)).map val).sum
        = (if key x = k then val x else 0) + ((l.filter (fun y => key y == k)).map val).sum := by
      intro k _
      by_cases h : key x = k <;> simp [List.filter_cons, h]
    rw [List.map_congr_left expand,
      sum_map_addQ (fun k => if key x = k then val x else 0)
        (fun k => ((l.filter (fun y => key y == k)).map val).sum) ks,
      sum_map_ite_mem (key x) (val x) ks hnd hx, ih hl]
    simp

/-! ### Conservation of the balance sum -/

theorem groupMemberIDs_nodup (st : Store) (gid : Nat) : (groupMemberIDs st gid).Nodup :=
  List.nodup_dedup _

theorem mem_groupMemberIDs {st : Store} {gid u : Nat} :
    u ∈ groupMemberIDs st gid ↔ hasMembership st u gid = true := by
  unfold groupMemberIDs hasMembership
  rw [List.mem_dedup]
  simp only [List.mem_map, List.mem_filter, List.any_eq_true, Bool.and_eq_true, beq_iff_eq]
  constructor
  · rintro ⟨m, ⟨hm, hg⟩, hu⟩
    exact ⟨m, hm, hu, hg⟩
  · rintro ⟨m, hm, hu, hg⟩
    exact ⟨m, ⟨hm, hg⟩, hu⟩

theorem groupExpenseIDs_nodup (st : Store) (gid : Nat) (hWF : WF st) :
    (groupExpenseIDs st gid).Nodup := by
  unfold groupExpenseIDs groupExpenses
  exact ((List.filter_sublist st.expenses).map (fun e => e.id)).nodup hWF.idsNodup

theorem groupSplits_cov (st : Store) (gid : Nat) :
    ∀ s ∈ groupSplits st gid, s.expenseID ∈ groupExpenseIDs st gid := by
  intro s hs
  rcases List.mem_filter.mp hs with ⟨_, hc⟩
  simpa [List.contains] using hc

/-- The splits attached to the expenses of a group carry exactly the total
    amount of those expenses. -/
theorem groupSplits_total (st : Store) (gid : Nat) (hWF : WF st) :
    ((groupSplits st gid).map (fun s => s.amountDue)).sum
      = ((groupExpenses st gid).map (fun e => e.amount)).sum := by
  rw [← sum_filter_key (fun s => s.expenseID) (fun s => s.amountDue) (groupSplits st gid)
    (groupExpenseIDs st gid) (groupExpenseIDs_nodup st gid hWF) (groupSplits_cov st gid)]
  unfold groupExpenseIDs
  rw [List.map_map]
  apply congrArg List.sum
  apply List.map_congr_left
  intro e he
  simp only [Function.comp_apply]
  have hmemall : e ∈ st.expenses := (List.mem_filter.mp he).1
  have hid : e.id ∈ groupExpenseIDs st gid := List.mem_map.mpr ⟨e, he, rfl⟩
  have hfilter : (groupSplits st gid).filter (fun s => s.expenseID == e.id)
      = st.splits.filter (fun s => s.expenseID == e.id) := by
    unfold groupSplits
    rw [List.filter_filter]
    apply List.filter_congr
    intro s _
    by_cases h : s.expenseID = e.id
    · simp [h, List.contains]
      exact hid
    · simp [h]
  rw [hfilter]
  exact hWF.splitSums e hmemall

/-- Conservation core: over one group whose recorded expense payers and split
    debtors all hold memberships, the reference balances of the members sum
    to zero. -/
theorem refBalance_sum_zero (st : Store) (gid : Nat) (hWF : WF st)
    (hpay : ∀ e ∈ groupExpenses st gid, e.payerID ∈ groupMemberIDs st gid)
    (hdeb : ∀ s ∈ groupSplits st gid, s.debtorID ∈ groupMemberIDs st gid) :
    ((groupMemberIDs st gid).map (fun u => refBalance st gid u)).sum = 0 := by
  have nd := groupMemberIDs_nodup st gid
  have hsp : ∀ t ∈ groupSettlements st gid, t.payerID ∈ groupMemberIDs st gid := by
    intro t ht
    rcases List.mem_filter.mp ht with ⟨hmem, hg⟩
    have hg2 : t.groupID = gid := by simpa using hg
    exact mem_groupMemberIDs.mpr (hg2 ▸ (hWF.settleMembers t hmem).1)
  have hsr : ∀ t ∈ groupSettlements st gid, t.receiverID ∈ groupMemberIDs st gid := by
    intro t ht
    rcases List.mem_filter.mp ht with ⟨hmem, hg⟩
    have hg2 : t.groupID = gid := by simpa using hg
    exact mem_groupMemberIDs.mpr (hg2 ▸ (hWF.settleMembers t hmem).2)
  have hA := sum_filter_key (fun e => e.payerID) (fun e => e.amount)
    (groupExpenses st gid) (groupMemberIDs st gid) nd hpay
  have hB := sum_filter_key (fun s => s.debtorID) (fun s => s.amountDue)
    (groupSplits st gid) (groupMemberIDs st gid) nd hdeb
  have hC := sum_filter_key (fun t => t.payerID) (fun t => t.amount)
    (groupSettlements st gid) (groupMemberIDs st gid) nd hsp
  have hD := sum_filter_key (fun t => t.receiverID) (fun t => t.amount)
    (groupSettlements st gid) (groupMemberIDs st gid) nd hsr
  simp only [refBalance]
  rw [sum_map_combo, hA, hB, hC, hD, groupSplits_total st gid hWF]
  ring

/-! ### Transaction characterisation -/

theorem createSplits_ok (eid : Nat) (share : ℚ) (fails : List Nat) :
    ∀ (ms : List Nat) (tx : Store) (i : Nat),
      (∀ j ∈ fails, ¬ (i ≤ j ∧ j < i + ms.length)) →
      createSplits eid share fails ms tx i
        = some { tx with splits := tx.splits ++ ms.map (fun m => ⟨eid, m, share⟩) } := by
  intro ms
  induction ms with
  | nil => intro tx i _; simp [createSplits]
  | cons m rest ih =>
    intro tx i hok
    have hf : i ∉ fails := by
      intro hi
      exact hok i hi (by simp only [List.length_cons]; omega)
    have hrec : ∀ j ∈ fails, ¬ (i + 1 ≤ j ∧ j < (i + 1) + rest.length) := by
      intro j hj hr
      exact hok j hj (by simp only [List.length_cons]; omega)
    unfold createSplits
    rw [if_neg hf, ih _ (i + 1) hrec]
    simp

theorem createSplits_some (eid : Nat) (share : ℚ) (fails : List Nat) :
    ∀ (ms : List Nat) (tx tx2 : Store) (i : Nat),
      createSplits eid share fails ms tx i = some tx2 →
      tx2 = { tx with splits := tx.splits ++ ms.map (fun m => ⟨eid, m, share⟩) } := by
  intro ms
  induction ms with
  | nil =>
    intro tx tx2 i h
    simp [createSplits] at h
    simp [← h]
  | cons m rest ih =>
    intro tx tx2 i h
    unfold createSplits at h
    by_cases hf : i ∈ fails
    · simp [hf] at h
    · rw [if_neg hf] at h
      have := ih _ _ _ h
      simp [this]

theorem createSplits_fail (eid : Nat) (share : ℚ) (fails : List Nat) :
    ∀ (ms : List Nat) (tx : Store) (i j : Nat), j ∈ fails → i ≤ j → j < i + ms.length →
      createSplits eid share fails ms tx i = none := by
  intro ms
  induction ms with
  | nil =>
    intro tx i j _ h1 h2
    simp only [List.length_nil] at h2
    omega
  | cons m rest ih =>
    intro tx i j hj h1 h2
    unfold createSplits
    by_cases hf : i ∈ fails
    · rw [if_pos hf]
    · have hij : i ≠ j := fun hh => hf (hh ▸ hj)
      rw [if_neg hf]
      exact ih _ (i + 1) j hj (by omega) (by simp only [List.length_cons] at h2; omega)

/-- The store committed by a successful expense creation. -/
def addStore (st : Store) (gid : Nat) (input : AddExpenseInput) : Store :=
  { st with
    expenses := st.expenses ++
      [⟨st.nextExpenseID, gid, input.payerID, input.amount, input.description, input.date⟩],
    splits := st.splits ++ input.memberIDs.map
      (fun m => ⟨st.nextExpenseID, m, input.amount / (input.memberIDs.length : ℚ)⟩),
    nextExpenseID := st.nextExpenseID + 1 }

/-- Success equation of AddExpense: both validations pass and no write of the
    transaction is scheduled to fail. -/
theorem AddExpense_eq (st : Store) (c g : Nat) (input : AddExpenseInput) (fails : List Nat)
    (h1 : hasMembership st c g = true) (h2 : bindAddExpense input = true)
    (h3 : ∀ j ∈ fails, ¬ j ≤ input.memberIDs.length) :
    AddExpense st c g input fails
      = (.ok ⟨st.nextExpenseID, g, input.payerID, input.amount, input.description, input.date⟩,
         addStore st g input) := by
  unfold AddExpense
  rw [if_pos h1, if_pos h2, if_neg (fun h0 => h3 0 h0 (Nat.zero_le _)),
    createSplits_ok _ _ _ _ _ 1 (fun j hj hr => h3 j hj (by omega))]
  rfl

/-- Every outcome of AddExpense: rollback to the untouched store, or the
    committed store. -/
theorem AddExpense_store (st : Store) (c g : Nat) (input : AddExpenseInput) (fails : List Nat) :
    (AddExpense st c g input fails).2 = st ∨
    (bindAddExpense input = true ∧ (AddExpense st c g input fails).2 = addStore st g input) := by
  unfold AddExpense
  by_cases h1 : hasMembership st c g = true
  case neg => rw [if_neg h1]; left; rfl
  rw [if_pos h1]
  by_cases h2 : bindAddExpense input = true
  case neg => rw [if_neg h2]; left; rfl
  rw [if_pos h2]
  by_cases h3 : (0 : Nat) ∈ fails
  case pos => rw [if_pos h3]; left; rfl
  rw [if_neg h3]
  cases hcs : createSplits st.nextExpenseID (input.amount / (input.memberIDs.length : ℚ))
      fails input.memberIDs
      { st with
        expenses := st.expenses ++
          [⟨st.nextExpenseID, g, input.payerID, input.amount,
            input.description, input.date⟩],
        nextExpenseID := st.nextExpenseID + 1 } 1 with
  | none => left; rfl
  | some tx2 =>
    right
    refine ⟨h2, ?_⟩
    show tx2 = addStore st g input
    rw [createSplits_some _ _ _ _ _ _ _ hcs]
    rfl

def editedExpense (e0 : Expense) (input : AddExpenseInput) : Expense :=
  { e0 with payerID := input.payerID, amount := input.amount,
            description := input.description, date := input.date }

/-- The store committed by a successful expense edit. -/
def editStore (st : Store) (eid : Nat) (e0 : Expense) (input : AddExpenseInput) : Store :=
  { st with
    expenses := st.expenses.map (fun e => if e.id == eid then editedExpense e0 input else e),
    splits := st.splits.filter (fun s => s.expenseID != eid) ++ input.memberIDs.map
      (fun m => ⟨eid, m, input.amount / (input.memberIDs.length : ℚ)⟩) }

/-- Success equation of EditExpense. -/
theorem EditExpense_eq (st : Store) (c g eid : Nat) (input : AddExpenseInput) (fails : List Nat)
    (e0 : Expense) (h1 : hasMembership st c g = true)
    (hfind : st.expenses.find? (fun e => e.id == eid && e.groupID == g) = some e0)
    (h2 : bindAddExpense input = true)
    (h3 : ∀ j ∈ fails, ¬ j ≤ input.memberIDs.length + 1) :
    EditExpense st c g eid input fails
      = (.ok (editedExpense e0 input), editStore st eid e0 input) := by
  unfold EditExpense
  rw [if_pos h1, hfind]
  dsimp only
  rw [if_pos h2, if_neg (fun h0 => h3 0 h0 (by omega)),
    if_neg (fun hh => h3 1 hh (by omega)),
    createSplits_ok _ _ _ _ _ 2 (fun j hj hr => h3 j hj (by omega))]
  rfl

/-- Every outcome of EditExpense: rollback or the committed store. -/
theorem EditExpense_store (st : Store) (c g eid : Nat) (input : AddExpenseInput)
    (fails : List Nat) :
    (EditExpense st c g eid input fails).2 = st ∨
    (∃ e0, st.expenses.find? (fun e => e.id == eid && e.groupID == g) = some e0 ∧
      bindAddExpense input = true ∧
      (EditExpense st c g eid input fails).2 = editStore st eid e0 input) := by
  unfold EditExpense
  by_cases h1 : hasMembership st c g = true
  case neg => rw [if_neg h1]; left; rfl
  rw [if_pos h1]
  cases hfind : st.expenses.find? (fun e => e.id == eid && e.groupID == g) with
  | none => left; rfl
  | some e0 =>
    dsimp only
    by_cases h2 : bindAddExpense input = true
    case neg => rw [if_neg h2]; left; rfl
    rw [if_pos h2]
    by_cases hf0 : (0 : Nat) ∈ fails
    case pos => rw [if_pos hf0]; left; rfl
    rw [if_neg hf0]
    by_cases hf1 : (1 : Nat) ∈ fails
    case pos => rw [if_pos hf1]; left; rfl
    rw [if_neg hf1]
    cases hcs : createSplits eid (input.amount / (input.memberIDs.length : ℚ)) fails
        input.memberIDs
        { st with
          splits := st.splits.filter (fun s => s.expenseID != eid),
          expenses := st.expenses.map (fun e => if e.id == eid then
            { e0 with payerID := input.payerID, amount := input.amount,
                      description := input.description, date := input.date } else e) } 2 with
    | none => left; rfl
    | some tx3 =>
      right
      refine ⟨e0, rfl, h2, ?_⟩
      show tx3 = editStore st eid e0 input
      rw [createSplits_some _ _ _ _ _ _ _ hcs]
      rfl

/-- The store committed by a successful expense deletion. -/
def deleteStore (st : Store) (eid : Nat) : Store :=
  { st with
    splits := st.splits.filter (fun s => s.expenseID != eid),
    expenses := st.expenses.filter (fun e => e.id != eid) }

/-- Success equation of DeleteExpense. -/
theorem DeleteExpense_eq (st : Store) (c g eid : Nat) (fails : List Nat) (e0 : Expense)
    (h1 : hasMembership st c g = true)
    (hfind : st.expenses.find? (fun e => e.id == eid && e.groupID == g) = some e0)
    (h3 : ∀ j ∈ fails, ¬ j ≤ 1) :
    DeleteExpense st c g eid fails = (.ok (), deleteStore st eid) := by
  unfold DeleteExpense
  rw [if_pos h1, hfind]
  dsimp only
  rw [if_neg (fun h0 => h3 0 h0 (by omega)), if_neg (fun hh => h3 1 hh (by omega))]
  rfl

/-- Every outcome of DeleteExpense: rollback or the committed store. -/
theorem DeleteExpense_store (st : Store) (c g eid : Nat) (fails : List Nat) :
    (DeleteExpense st c g eid fails).2 = st ∨
    (DeleteExpense st c g eid fails).2 = deleteStore st eid := by
  unfold DeleteExpense
  by_cases h1 : hasMembership st c g = true
  case neg => rw [if_neg h1]; left; rfl
  rw [if_pos h1]
  cases hfind : st.expenses.find? (fun e => e.id == eid && e.groupID == g) with
  | none => left; rfl
  | some e0 =>
    dsimp only
    by_cases hf0 : (0 : Nat) ∈ fails
    case pos => rw [if_pos hf0]; left; rfl
    rw [if_neg hf0]
    by_cases hf1 : (1 : Nat) ∈ fails
    case pos => rw [if_pos hf1]; left; rfl
    rw [if_neg hf1]
    right; rfl

/-- The store committed by a successful settlement record. -/
def settleStore (st : Store) (gid : Nat) (input : AddSettlementInput) (now : Nat) : Store :=
  { st with
    settlements := st.settlements ++
      [⟨st.nextSettlementID, gid, input.payerID, input.receiverID, input.amount, now⟩],
    nextSettlementID := st.nextSettlementID + 1 }

/-- Success equation of RecordSettlement. -/
theorem RecordSettlement_eq (st : Store) (c g : Nat) (input : AddSettlementInput) (now : Nat)
    (h1 : hasMembership st c g = true) (h2 : bindAddSettlement input = true)
    (h3 : input.payerID ≠ input.receiverID)
    (h4 : hasMembership st input.payerID g = true)
    (h5 : hasMembership st input.receiverID g = true) :
    RecordSettlement st c g input now false
      = (.ok ⟨st.nextSettlementID, g, input.payerID, input.receiverID, input.amount, now⟩,
         settleStore st g input now) := by
  unfold RecordSettlement
  rw [if_pos h1, if_pos h2, if_neg (by simpa using h3), if_pos h4, if_pos h5]
  rfl

/-- Every outcome of RecordSettlement: rollback or the committed store. -/
theorem RecordSettlement_store (st : Store) (c g : Nat) (input : AddSettlementInput)
    (now : Nat) (fail : Bool) :
    (RecordSettlement st c g input now fail).2 = st ∨
    (bindAddSettlement input = true ∧ input.payerID ≠ input.receiverID ∧
      hasMembership st input.payerID g = true ∧ hasMembership st input.receiverID g = true ∧
      (RecordSettlement st c g input now fail).2 = settleStore st g input now) := by
  unfold RecordSettlement
  by_cases h1 : hasMembership st c g = true
  case neg => rw [if_neg h1]; left; rfl
  rw [if_pos h1]
  by_cases h2 : bindAddSettlement input = true
  case neg => rw [if_neg h2]; left; rfl
  rw [if_pos h2]
  by_cases h3 : input.payerID = input.receiverID
  case pos => rw [if_pos (by simpa using h3)]; left; rfl
  rw [if_neg (by simpa using h3)]
  by_cases h4 : hasMembership st input.payerID g = true
  case neg => rw [if_neg h4]; left; rfl
  rw [if_pos h4]
  by_cases h5 : hasMembership st input.receiverID g = true
  case neg => rw [if_neg h5]; left; rfl
  rw [if_pos h5]
  cases fail with
  | true => left; rfl
  | false =>
    right
    exact ⟨h2, h3, h4, h5, rfl⟩

/-- The store committed by a successful group creation. -/
def createGroupStore (st : Store) (callerID : Nat) (input : CreateGroupInput) : Store :=
  { st with
    groups := st.groups ++ [⟨st.nextGroupID, input.name, callerID⟩],
    memberships := st.memberships ++ [⟨callerID, st.nextGroupID⟩],
    nextGroupID := st.nextGroupID + 1 }

/-- Every outcome of CreateGroup: rollback or the committed store. -/
theorem CreateGroup_store (st : Store) (c : Nat) (input : CreateGroupInput) (fails : List Nat) :
    (CreateGroup st c input fails).2 = st ∨
    (CreateGroup st c input fails).2 = createGroupStore st c input := by
  unfold CreateGroup
  by_cases h1 : (input.name != "") = true
  case neg => rw [if_neg h1]; left; rfl
  rw [if_pos h1]
  by_cases hf0 : (0 : Nat) ∈ fails
  case pos => rw [if_pos hf0]; left; rfl
  rw [if_neg hf0]
  by_cases hf1 : (1 : Nat) ∈ fails
  case pos => rw [if_pos hf1]; left; rfl
  rw [if_neg hf1]
  right; rfl

/-! ### Well-formedness preservation -/

theorem bindAddExpense_fields {input : AddExpenseInput} (h : bindAddExpense input = true) :
    0 < input.amount ∧ 1 ≤ input.memberIDs.length := by
  unfold bindAddExpense at h
  simp only [Bool.and_eq_true, decide_eq_true_eq, bne_iff_ne] at h
  exact ⟨h.1.1.2, h.2⟩

theorem splitShare_sum (eid : Nat) (share : ℚ) (ms : List Nat) :
    ((ms.map (fun m => (⟨eid, m, share⟩ : Split))).map (fun s => s.amountDue)).sum
      = (ms.length : ℚ) * share := by
  rw [List.map_map]
  simp only [Function.comp_def]
  rw [List.map_const', List.sum_replicate, nsmul_eq_mul]

/-- Replacing the expense carrying one id leaves the id list unchanged. -/
theorem edit_ids (l : List Expense) (eid : Nat) (e1 : Expense) (h : e1.id = eid) :
    (l.map (fun e => if e.id == eid then e1 else e)).map (fun e => e.id)
      = l.map (fun e => e.id) := by
  rw [List.map_map]
  apply List.map_congr_left
  intro e _
  simp only [Function.comp_apply]
  by_cases hc : e.id = eid
  · simp [hc, h]
  · simp [hc]

/-- Filtering away one expense id and then selecting a different one selects
    the same splits as before. -/
theorem filter_ne_filter_eq (l : List Split) (eid k : Nat) (h : k ≠ eid) :
    (l.filter (fun s => s.expenseID != eid)).filter (fun s => s.expenseID == k)
      = l.filter (fun s => s.expenseID == k) := by
  rw [List.filter_filter]
  apply List.filter_congr
  intro s _
  by_cases hc : s.expenseID = k
  · simp [hc, h]
  · simp [hc]

theorem addStore_newSum (st : Store) (g : Nat) (input : AddExpenseInput) (hWF : WF st)
    (hn : 1 ≤ input.memberIDs.length) :
    expenseSplitSum (addStore st g input) st.nextExpenseID = input.amount := by
  unfold expenseSplitSum addStore
  dsimp only
  rw [List.filter_append]
  have hold : st.splits.filter (fun s => s.expenseID == st.nextExpenseID) = [] := by
    rw [List.filter_eq_nil_iff]
    intro s hsm
    rcases hWF.splitsRef s hsm with ⟨e2, he2, hid⟩
    simp only [beq_iff_eq, hid]
    exact Nat.ne_of_lt (hWF.idsLt e2 he2)
  have hall : (input.memberIDs.map
      (fun m => (⟨st.nextExpenseID, m,
        input.amount / (input.memberIDs.length : ℚ)⟩ : Split))).filter
        (fun s => s.expenseID == st.nextExpenseID)
      = input.memberIDs.map
        (fun m => (⟨st.nextExpenseID, m,
          input.amount / (input.memberIDs.length : ℚ)⟩ : Split)) := by
    rw [List.filter_eq_self]
    intro s hsm
    rcases List.mem_map.mp hsm with ⟨m, _, rfl⟩
    simp
  rw [hold, List.nil_append, hall, splitShare_sum, mul_comm]
  exact div_mul_cancel₀ input.amount (by simp only [ne_eq, Nat.cast_eq_zero]; omega)

theorem addStore_oldSum (st : Store) (g k : Nat) (input : AddExpenseInput)
    (hk : k ≠ st.nextExpenseID) :
    expenseSplitSum (addStore st g input) k = expenseSplitSum st k := by
  unfold expenseSplitSum addStore
  dsimp only
  rw [List.filter_append]
  have hnil : (input.memberIDs.map
      (fun m => (⟨st.nextExpenseID, m,
        input.amount / (input.memberIDs.length : ℚ)⟩ : Split))).filter
        (fun s => s.expenseID == k) = [] := by
    rw [List.filter_eq_nil_iff]
    intro s hsm
    rcases List.mem_map.mp hsm with ⟨m, _, rfl⟩
    simp only [beq_iff_eq]
    exact fun hh => hk hh.symm
  rw [hnil, List.append_nil]

theorem WF_addStore (st : Store) (g : Nat) (input : AddExpenseInput) (hWF : WF st)
    (h2 : bindAddExpense input = true) : WF (addStore st g input) := by
  have hn : 1 ≤ input.memberIDs.length := (bindAddExpense_fields h2).2
  constructor
  · simp only [addStore, List.map_append]
    rw [List.nodup_append]
    refine ⟨hWF.idsNodup, by simp, ?_⟩
    intro x hx hy
    simp only [List.map_cons, List.map_nil, List.mem_singleton] at hy
    rcases List.mem_map.mp hx with ⟨e, he, rfl⟩
    exact absurd hy (Nat.ne_of_lt (hWF.idsLt e he))
  · intro e he
    simp only [addStore] at he ⊢
    rcases List.mem_append.mp he with h | h
    · exact Nat.lt_succ_of_lt (hWF.idsLt e h)
    · simp only [List.mem_singleton] at h
      subst h
      exact Nat.lt_succ_self _
  · intro s hs
    simp only [addStore] at hs ⊢
    rcases List.mem_append.mp hs with h | h
    · rcases hWF.splitsRef s h with ⟨e, he, hid⟩
      exact ⟨e, List.mem_append_left _ he, hid⟩
    · rcases List.mem_map.mp h with ⟨m, _, rfl⟩
      exact ⟨_, List.mem_append_right _ (List.mem_singleton_self _), rfl⟩
  · intro e he
    have he2 : e ∈ st.expenses ++
        [(⟨st.nextExpenseID, g, input.payerID, input.amount,
          input.description, input.date⟩ : Expense)] := he
    rcases List.mem_append.mp he2 with h | h
    · rw [addStore_oldSum st g e.id input (Nat.ne_of_lt (hWF.idsLt e h))]
      exact hWF.splitSums e h
    · simp only [List.mem_singleton] at h
      subst h
      exact addStore_newSum st g input hWF hn
  · intro t ht
    exact hWF.settleMembers t ht

theorem editStore_newSum (st : Store) (eid : Nat) (e0 : Expense) (input : AddExpenseInput)
    (hn : 1 ≤ input.memberIDs.length) :
    expenseSplitSum (editStore st eid e0 input) eid = input.amount := by
  unfold expenseSplitSum editStore
  dsimp only
  rw [List.filter_append]
  have hold : (st.splits.filter (fun s => s.expenseID != eid)).filter
      (fun s => s.expenseID == eid) = [] := by
    rw [List.filter_filter, List.filter_eq_nil_iff]
    intro s _
    by_cases hc : s.expenseID = eid <;> simp [hc]
  have hall : (input.memberIDs.map
      (fun m => (⟨eid, m, input.amount / (input.memberIDs.length : ℚ)⟩ : Split))).filter
        (fun s => s.expenseID == eid)
      = input.memberIDs.map
        (fun m => (⟨eid, m, input.amount / (input.memberIDs.length : ℚ)⟩ : Split)) := by
    rw [List.filter_eq_self]
    intro s hsm
    rcases List.mem_map.mp hsm with ⟨m, _, rfl⟩
    simp
  rw [hold, List.nil_append, hall, splitShare_sum, mul_comm]
  exact div_mul_cancel₀ input.amount (by simp only [ne_eq, Nat.cast_eq_zero]; omega)

theorem editStore_oldSum (st : Store) (eid k : Nat) (e0 : Expense) (input : AddExpenseInput)
    (hk : k ≠ eid) :
    expenseSplitSum (editStore st eid e0 input) k = expenseSplitSum st k := by
  unfold expenseSplitSum editStore
  dsimp only
  rw [List.filter_append, filter_ne_filter_eq st.splits eid k hk]
  have hnil : (input.memberIDs.map
      (fun m => (⟨eid, m, input.amount / (input.memberIDs.length : ℚ)⟩ : Split))).filter
        (fun s => s.expenseID == k) = [] := by
    rw [List.filter_eq_nil_iff]
    intro s hsm
    rcases List.mem_map.mp hsm with ⟨m, _, rfl⟩
    simp only [beq_iff_eq]
    exact fun hh => hk hh.symm
  rw [hnil, List.append_nil]

theorem WF_editStore (st : Store) (g eid : Nat) (e0 : Expense) (input : AddExpenseInput)
    (hWF : WF st)
    (hfind : st.expenses.find? (fun e => e.id == eid && e.groupID == g) = some e0)
    (h2 : bindAddExpense input = true) : WF (editStore st eid e0 input) := by
  have hn : 1 ≤ input.memberIDs.length := (bindAddExpense_fields h2).2
  have he0mem : e0 ∈ st.expenses := List.mem_of_find?_eq_some hfind
  have he0p := List.find?_some hfind
  simp only [Bool.and_eq_true, beq_iff_eq] at he0p
  have he1id : (editedExpense e0 input).id = eid := he0p.1
  have hrepl : ∀ e2 : Expense,
      (if e2.id == eid then editedExpense e0 input else e2).id = e2.id := by
    intro e2
    by_cases hc : e2.id = eid
    · simp [hc, he1id]
    · simp [hc]
  constructor
  · simp only [editStore]
    rw [edit_ids st.expenses eid (editedExpense e0 input) he1id]
    exact hWF.idsNodup
  · intro e he
    simp only [editStore] at he
    rcases List.mem_map.mp he with ⟨e2, he2, rfl⟩
    simp only [editStore]
    rw [hrepl e2]
    exact hWF.idsLt e2 he2
  · intro s hs
    simp only [editStore] at hs ⊢
    rcases List.mem_append.mp hs with h | h
    · rcases List.mem_filter.mp h with ⟨hmem, _⟩
      rcases hWF.splitsRef s hmem with ⟨e, he, hid⟩
      exact ⟨if e.id == eid then editedExpense e0 input else e,
        List.mem_map.mpr ⟨e, he, rfl⟩, by rw [hrepl e]; exact hid⟩
    · rcases List.mem_map.mp h with ⟨m, _, rfl⟩
      exact ⟨editedExpense e0 input,
        List.mem_map.mpr ⟨e0, he0mem, by simp [he0p.1]⟩, he1id.symm⟩
  · intro e he
    simp only [editStore] at he
    rcases List.mem_map.mp he with ⟨e2, he2, rfl⟩
    by_cases hc : e2.id = eid
    · rw [if_pos (beq_iff_eq.mpr hc), he1id, editStore_newSum st eid e0 input hn]
      rfl
    · rw [if_neg (by simpa using hc),
        editStore_oldSum st eid e2.id e0 input hc]
      exact hWF.splitSums e2 he2
  · intro t ht
    exact hWF.settleMembers t ht

theorem WF_deleteStore (st : Store) (eid : Nat) (hWF : WF st) : WF (deleteStore st eid) := by
  constructor
  · simp only [deleteStore]
    exact ((List.filter_sublist st.expenses).map (fun e => e.id)).nodup hWF.idsNodup
  · intro e he
    simp only [deleteStore] at he
    exact hWF.idsLt e (List.mem_filter.mp he).1
  · intro s hs
    simp only [deleteStore] at hs ⊢
    rcases List.mem_filter.mp hs with ⟨hmem, hne⟩
    simp only [bne_iff_ne, ne_eq, decide_eq_true_eq] at hne
    rcases hWF.splitsRef s hmem with ⟨e, he, hid⟩
    refine ⟨e, List.mem_filter.mpr ⟨he, ?_⟩, hid⟩
    simp only [bne_iff_ne, ne_eq, decide_eq_true_eq]
    rw [← hid]
    exact hne
  · intro e he
    simp only [deleteStore] at he
    rcases List.mem_filter.mp he with ⟨hmem, hne⟩
    simp only [bne_iff_ne, ne_eq, decide_eq_true_eq] at hne
    have : expenseSplitSum (deleteStore st eid) e.id = expenseSplitSum st e.id := by
      unfold expenseSplitSum deleteStore
      dsimp only
      rw [filter_ne_filter_eq st.splits eid e.id hne]
    rw [this]
    exact hWF.splitSums e hmem
  · intro t ht
    exact hWF.settleMembers t ht

theorem WF_settleStore (st : Store) (g : Nat) (input : AddSettlementInput) (now : Nat)
    (hWF : WF st)
    (h4 : hasMembership st input.payerID g = true)
    (h5 : hasMembership st input.receiverID g = true) : WF (settleStore st g input now) := by
  constructor
  · exact hWF.idsNodup
  · exact hWF.idsLt
  · exact hWF.splitsRef
  · exact hWF.splitSums
  · intro t ht
    have ht2 : t ∈ st.settlements ++
        [(⟨st.nextSettlementID, g, input.payerID, input.receiverID,
          input.amount, now⟩ : Settlement)] := ht
    rcases List.mem_append.mp ht2 with h | h
    · exact hWF.settleMembers t h
    · simp only [List.mem_singleton] at h
      subst h
      exact ⟨h4, h5⟩

theorem hasMembership_append (st : Store) (m : Membership) (u g : Nat)
    (hm : hasMembership st u g = true) :
    (st.memberships ++ [m]).any (fun x => x.userID == u && x.groupID == g) = true := by
  rw [List.any_append]
  unfold hasMembership at hm
  rw [hm]
  rfl

theorem WF_createGroupStore (st : Store) (c : Nat) (input : CreateGroupInput) (hWF : WF st) :
    WF (createGroupStore st c input) := by
  constructor
  · exact hWF.idsNodup
  · exact hWF.idsLt
  · exact hWF.splitsRef
  · exact hWF.splitSums
  · intro t ht
    have h := hWF.settleMembers t ht
    exact ⟨hasMembership_append st _ t.payerID t.groupID h.1,
      hasMembership_append st _ t.receiverID t.groupID h.2⟩

/-- Every single engine request preserves store well-formedness. -/
theorem WF_step (st : Store) (op : Op) (hWF : WF st) : WF (step st op) := by
  cases op with
  | createGroup c i f =>
    show WF (CreateGroup st c i f).2
    rcases CreateGroup_store st c i f with h | h
    · rw [h]; exact hWF
    · rw [h]; exact WF_createGroupStore st c i hWF
  | addExpense c g i f =>
    show WF (AddExpense st c g i f).2
    rcases AddExpense_store st c g i f with h | ⟨h2, h⟩
    · rw [h]; exact hWF
    · rw [h]; exact WF_addStore st g i hWF h2
  | editExpense c g e i f =>
    show WF (EditExpense st c g e i f).2
    rcases EditExpense_store st c g e i f with h | ⟨e0, hfind, h2, h⟩
    · rw [h]; exact hWF
    · rw [h]; exact WF_editStore st g e e0 i hWF hfind h2
  | deleteExpense c g e f =>
    show WF (DeleteExpense st c g e f).2
    rcases DeleteExpense_store st c g e f with h | h
    · rw [h]; exact hWF
    · rw [h]; exact WF_deleteStore st e hWF
  | recordSettlement c g i n f =>
    show WF (RecordSettlement st c g i n f).2
    rcases RecordSettlement_store st c g i n f with h | ⟨_, _, h4, h5, h⟩
    · rw [h]; exact hWF
    · rw [h]; exact WF_settleStore st g i n hWF h4 h5

/-- Any request sequence preserves store well-formedness. -/
theorem WF_run (st : Store) (ops : List Op) (hWF : WF st) : WF (run st ops) := by
  induction ops generalizing st with
  | nil => exact hWF
  | cons op ops ih =>
    show WF (List.foldl step (step st op) ops)
    exact ih (step st op) (WF_step st op hWF)

/-! ### Success inversions and reader congruences -/

theorem AddExpense_ok (st : Store) (c g : Nat) (input : AddExpenseInput) (fails : List Nat)
    (e : Expense) (st2 : Store)
    (h : AddExpense st c g input fails = (.ok e, st2)) :
    hasMembership st c g = true ∧ bindAddExpense input = true ∧
    e = ⟨st.nextExpenseID, g, input.payerID, input.amount, input.description, input.date⟩ ∧
    st2 = addStore st g input := by
  unfold AddExpense at h
  by_cases h1 : hasMembership st c g = true
  case neg => rw [if_neg h1] at h; simp at h
  rw [if_pos h1] at h
  by_cases h2 : bindAddExpense input = true
  case neg => rw [if_neg h2] at h; simp at h
  rw [if_pos h2] at h
  by_cases h3 : (0 : Nat) ∈ fails
  case pos => rw [if_pos h3] at h; simp at h
  rw [if_neg h3] at h
  cases hcs : createSplits st.nextExpenseID (input.amount / (input.memberIDs.length : ℚ))
      fails input.memberIDs
      { st with
        expenses := st.expenses ++
          [⟨st.nextExpenseID, g, input.payerID, input.amount,
            input.description, input.date⟩],
        nextExpenseID := st.nextExpenseID + 1 } 1 with
  | none => rw [hcs] at h; simp at h
  | some tx2 =>
    rw [hcs] at h
    simp only [Prod.mk.injEq, Except.ok.injEq] at h
    refine ⟨h1, h2, h.1.symm, ?_⟩
    rw [← h.2, createSplits_some _ _ _ _ _ _ _ hcs]
    rfl

theorem EditExpense_ok (st : Store) (c g eid : Nat) (input : AddExpenseInput)
    (fails : List Nat) (e1 : Expense) (st2 : Store)
    (h : EditExpense st c g eid input fails = (.ok e1, st2)) :
    ∃ e0, st.expenses.find? (fun e => e.id == eid && e.groupID == g) = some e0 ∧
      hasMembership st c g = true ∧ bindAddExpense input = true ∧
      e1 = editedExpense e0 input ∧ st2 = editStore st eid e0 input := by
  unfold EditExpense at h
  by_cases h1 : hasMembership st c g = true
  case neg => rw [if_neg h1] at h; simp at h
  rw [if_pos h1] at h
  cases hfind : st.expenses.find? (fun e => e.id == eid && e.groupID == g) with
  | none => rw [hfind] at h; simp at h
  | some e0 =>
    rw [hfind] at h
    dsimp only at h
    by_cases h2 : bindAddExpense input = true
    case neg => rw [if_neg h2] at h; simp at h
    rw [if_pos h2] at h
    by_cases hf0 : (0 : Nat) ∈ fails
    case pos => rw [if_pos hf0] at h; simp at h
    rw [if_neg hf0] at h
    by_cases hf1 : (1 : Nat) ∈ fails
    case pos => rw [if_pos hf1] at h; simp at h
    rw [if_neg hf1] at h
    cases hcs : createSplits eid (input.amount / (input.memberIDs.length : ℚ)) fails
        input.memberIDs
        { st with
          splits := st.splits.filter (fun s => s.expenseID != eid),
          expenses := st.expenses.map (fun e => if e.id == eid then
            { e0 with payerID := input.payerID, amount := input.amount,
                      description := input.description, date := input.date } else e) } 2 with
    | none => rw [hcs] at h; simp at h
    | some tx3 =>
      rw [hcs] at h
      simp only [Prod.mk.injEq, Except.ok.injEq] at h
      refine ⟨e0, rfl, h1, h2, h.1.symm, ?_⟩
      rw [← h.2, createSplits_some _ _ _ _ _ _ _ hcs]
      rfl

theorem EditExpense_err (st : Store) (c g eid : Nat) (input : AddExpenseInput)
    (fails : List Nat) (err : Err) (st2 : Store)
    (h : EditExpense st c g eid input fails = (.error err, st2)) : st2 = st := by
  unfold EditExpense at h
  by_cases h1 : hasMembership st c g = true
  case neg => rw [if_neg h1] at h; simp at h; exact h.2.symm
  rw [if_pos h1] at h
  cases hfind : st.expenses.find? (fun e => e.id == eid && e.groupID == g) with
  | none => rw [hfind] at h; simp at h; exact h.2.symm
  | some e0 =>
    rw [hfind] at h
    dsimp only at h
    by_cases h2 : bindAddExpense input = true
    case neg => rw [if_neg h2] at h; simp at h; exact h.2.symm
    rw [if_pos h2] at h
    by_cases hf0 : (0 : Nat) ∈ fails
    case pos => rw [if_pos hf0] at h; simp at h; exact h.2.symm
    rw [if_neg hf0] at h
    by_cases hf1 : (1 : Nat) ∈ fails
    case pos => rw [if_pos hf1] at h; simp at h; exact h.2.symm
    rw [if_neg hf1] at h
    cases hcs : createSplits eid (input.amount / (input.memberIDs.length : ℚ)) fails
        input.memberIDs
        { st with
          splits := st.splits.filter (fun s => s.expenseID != eid),
          expenses := st.expenses.map (fun e => if e.id == eid then
            { e0 with payerID := input.payerID, amount := input.amount,
                      description := input.description, date := input.date } else e) } 2 with
    | none => rw [hcs] at h; simp at h; exact h.2.symm
    | some tx3 => rw [hcs] at h; simp at h

theorem DeleteExpense_ok (st : Store) (c g eid : Nat) (fails : List Nat) (st2 : Store)
    (h : DeleteExpense st c g eid fails = (.ok (), st2)) :
    (∃ e0, st.expenses.find? (fun e => e.id == eid && e.groupID == g) = some e0) ∧
    st2 = deleteStore st eid := by
  unfold DeleteExpense at h
  by_cases h1 : hasMembership st c g = true
  case neg => rw [if_neg h1] at h; simp at h
  rw [if_pos h1] at h
  cases hfind : st.expenses.find? (fun e => e.id == eid && e.groupID == g) with
  | none => rw [hfind] at h; simp at h
  | some e0 =>
    rw [hfind] at h
    dsimp only at h
    by_cases hf0 : (0 : Nat) ∈ fails
    case pos => rw [if_pos hf0] at h; simp at h
    rw [if_neg hf0] at h
    by_cases hf1 : (1 : Nat) ∈ fails
    case pos => rw [if_pos hf1] at h; simp at h
    rw [if_neg hf1] at h
    simp only [Prod.mk.injEq] at h
    exact ⟨⟨e0, rfl⟩, h.2.symm⟩

theorem RecordSettlement_ok (st : Store) (c g : Nat) (input : AddSettlementInput)
    (now : Nat) (fail : Bool) (t : Settlement) (st2 : Store)
    (h : RecordSettlement st c g input now fail = (.ok t, st2)) :
    hasMembership st c g = true ∧ bindAddSettlement input = true ∧
    input.payerID ≠ input.receiverID ∧
    hasMembership st input.payerID g = true ∧ hasMembership st input.receiverID g = true ∧
    t = ⟨st.nextSettlementID, g, input.payerID, input.receiverID, input.amount, now⟩ ∧
    st2 = settleStore st g input now := by
  unfold RecordSettlement at h
  by_cases h1 : hasMembership st c g = true
  case neg => rw [if_neg h1] at h; simp at h
  rw [if_pos h1] at h
  by_cases h2 : bindAddSettlement input = true
  case neg => rw [if_neg h2] at h; simp at h
  rw [if_pos h2] at h
  by_cases h3 : input.payerID = input.receiverID
  case pos => rw [if_pos (by simpa using h3)] at h; simp at h
  rw [if_neg (by simpa using h3)] at h
  by_cases h4 : hasMembership st input.payerID g = true
  case neg => rw [if_neg h4] at h; simp at h
  rw [if_pos h4] at h
  by_cases h5 : hasMembership st input.receiverID g = true
  case neg => rw [if_neg h5] at h; simp at h
  rw [if_pos h5] at h
  cases fail with
  | true => simp at h
  | false =>
    simp only [Bool.false_eq_true, if_false, Prod.mk.injEq, Except.ok.injEq] at h
    exact ⟨h1, h2, h3, h4, h5, h.1.symm, h.2.symm⟩

/-- The split rows a successful creation stores under the fresh expense id. -/
theorem addStore_newSplits (st : Store) (g : Nat) (input : AddExpenseInput) (hWF : WF st) :
    (addStore st g input).splits.filter (fun s => s.expenseID == st.nextExpenseID)
      = input.memberIDs.map
        (fun m => ⟨st.nextExpenseID, m, input.amount / (input.memberIDs.length : ℚ)⟩) := by
  simp only [addStore]
  rw [List.filter_append]
  have hold : st.splits.filter (fun s => s.expenseID == st.nextExpenseID) = [] := by
    rw [List.filter_eq_nil_iff]
    intro s hsm
    rcases hWF.splitsRef s hsm with ⟨e2, he2, hid⟩
    simp only [beq_iff_eq, hid]
    exact Nat.ne_of_lt (hWF.idsLt e2 he2)
  have hall : (input.memberIDs.map
      (fun m => (⟨st.nextExpenseID, m,
        input.amount / (input.memberIDs.length : ℚ)⟩ : Split))).filter
        (fun s => s.expenseID == st.nextExpenseID)
      = input.memberIDs.map
        (fun m => (⟨st.nextExpenseID, m,
          input.amount / (input.memberIDs.length : ℚ)⟩ : Split)) := by
    rw [List.filter_eq_self]
    intro s hsm
    rcases List.mem_map.mp hsm with ⟨m, _, rfl⟩
    simp
  rw [hold, List.nil_append, hall]

/-- The split rows a successful edit stores under the edited expense id. -/
theorem editStore_splits (st : Store) (eid : Nat) (e0 : Expense) (input : AddExpenseInput) :
    (editStore st eid e0 input).splits.filter (fun s => s.expenseID == eid)
      = input.memberIDs.map
        (fun m => ⟨eid, m, input.amount / (input.memberIDs.length : ℚ)⟩) := by
  simp only [editStore]
  rw [List.filter_append]
  have hold : (st.splits.filter (fun s => s.expenseID != eid)).filter
      (fun s => s.expenseID == eid) = [] := by
    rw [List.filter_filter, List.filter_eq_nil_iff]
    intro s _
    by_cases hc : s.expenseID = eid <;> simp [hc]
  have hall : (input.memberIDs.map
      (fun m => (⟨eid, m, input.amount / (input.memberIDs.length : ℚ)⟩ : Split))).filter
        (fun s => s.expenseID == eid)
      = input.memberIDs.map
        (fun m => (⟨eid, m, input.amount / (input.memberIDs.length : ℚ)⟩ : Split)) := by
    rw [List.filter_eq_self]
    intro s hsm
    rcases List.mem_map.mp hsm with ⟨m, _, rfl⟩
    simp
  rw [hold, List.nil_append, hall]

theorem groupSettlements_settle (st : Store) (g : Nat) (input : AddSettlementInput)
    (now : Nat) :
    groupSettlements (settleStore st g input now) g
      = groupSettlements st g ++
        [⟨st.nextSettlementID, g, input.payerID, input.receiverID, input.amount, now⟩] := by
  unfold groupSettlements settleStore
  dsimp only
  rw [List.filter_append]
  simp

/-- Recording a settlement moves the payer balance down and the receiver
    balance up by the settled amount, leaving every other balance unchanged. -/
theorem settle_balances (st : Store) (g : Nat) (input : AddSettlementInput) (now : Nat)
    (u : Nat) :
    groupBalances (settleStore st g input now) g u
      = groupBalances st g u + (if input.receiverID = u then input.amount else 0)
          - (if input.payerID = u then input.amount else 0) := by
  rw [groupBalances_apply, groupBalances_apply]
  unfold refBalance
  have hE : groupExpenses (settleStore st g input now) g = groupExpenses st g := rfl
  have hS : groupSplits (settleStore st g input now) g = groupSplits st g := rfl
  rw [hE, hS, groupSettlements_settle, List.filter_append, List.map_append, List.sum_append,
    List.filter_append, List.map_append, List.sum_append]
  by_cases h1 : input.payerID = u <;> by_cases h2 : input.receiverID = u <;>
    simp [List.filter_cons, h1, h2] <;> ring

/-- GetGroupDebts reads only the users, memberships, expenses, splits and
    settlements of the store. -/
theorem GetGroupDebts_congr (st1 st2 : Store) (hU : st1.users = st2.users)
    (hM : st1.memberships = st2.memberships) (hE : st1.expenses = st2.expenses)
    (hS : st1.splits = st2.splits) (hT : st1.settlements = st2.settlements)
    (c g : Nat) : GetGroupDebts st1 c g = GetGroupDebts st2 c g := by
  simp only [GetGroupDebts, hasMembership, groupMemberIDs, usernameOf, groupBalances,
    groupExpenses, groupSplits, groupSettlements, groupExpenseIDs]
  rw [hU, hM, hE, hS, hT]

/-! ### Claim theorems -/

/-- C1 (amended): for any well-formed starting store and any sequence of
    engine requests (creates, edits, deletes, settlements, group creations,
    with arbitrary write-failure schedules), if every expense payer and every
    split debtor recorded for the group holds a membership in the group, then
    the balances returned by GetGroupDebts sum to exactly zero.  The
    membership proviso is forced: the handlers accept payer and participant
    ids without a membership check, and such amounts fall outside the
    member-only sum (see the counterexample). -/
theorem C1_conservation (st0 : Store) (ops : List Op) (gid : Nat) (hWF : WF st0)
    (hpay : ∀ e ∈ groupExpenses (run st0 ops) gid,
      hasMembership (run st0 ops) e.payerID gid = true)
    (hdeb : ∀ s ∈ groupSplits (run st0 ops) gid,
      hasMembership (run st0 ops) s.debtorID gid = true)
    (c : Nat) (l : List DebtSummary)
    (hres : GetGroupDebts (run st0 ops) c gid = .ok l) :
    (l.map (fun d => d.balance)).sum = 0 := by
  have hWF2 := WF_run st0 ops hWF
  unfold GetGroupDebts at hres
  by_cases hm : hasMembership (run st0 ops) c gid = true
  · rw [if_pos hm] at hres
    simp only [Except.ok.injEq] at hres
    subst hres
    rw [List.map_map]
    have heq : ((fun d => d.balance) ∘ fun u =>
        (⟨u, usernameOf (run st0 ops) u, groupBalances (run st0 ops) gid u⟩ : DebtSummary))
        = fun u => groupBalances (run st0 ops) gid u := rfl
    rw [heq]
    have heq2 : (groupMemberIDs (run st0 ops) gid).map
        (fun u => groupBalances (run st0 ops) gid u)
        = (groupMemberIDs (run st0 ops) gid).map
          (fun u => refBalance (run st0 ops) gid u) :=
      List.map_congr_left (fun u _ => groupBalances_apply (run st0 ops) gid u)
    rw [heq2]
    exact refBalance_sum_zero (run st0 ops) gid hWF2
      (fun e he => mem_groupMemberIDs.mpr (hpay e he))
      (fun s hs => mem_groupMemberIDs.mpr (hdeb s hs))
  · rw [if_neg hm] at hres
    simp at hres

/-- C2: for a caller who is a group member, GetGroupDebts returns exactly the
    5-step reference reduction of the specification: zero-initialised member
    balances, plus expense amounts to payers, minus split amounts from
    debtors, settlement amounts moved from payer to receiver, one
    (member, balance) pair per group member, zero balances included. -/
theorem C2_reference_reduction (st : Store) (c gid : Nat)
    (h : hasMembership st c gid = true) :
    GetGroupDebts st c gid = .ok (refDebts st gid) := by
  unfold GetGroupDebts refDebts
  rw [if_pos h]
  congr 1
  apply List.map_congr_left
  intro u _
  rw [groupBalances_apply]

/-- C3: a successful expense creation with participant list of size n and
    amount A persists exactly n split rows for the created expense, each with
    amountDue = A / n and no remainder redistribution, and the amounts sum to
    exactly A. -/
theorem C3_split_coverage (st : Store) (c g : Nat) (input : AddExpenseInput)
    (fails : List Nat) (e : Expense) (st2 : Store) (hWF : WF st)
    (hok : AddExpense st c g input fails = (.ok e, st2)) :
    (st2.splits.filter (fun s => s.expenseID == e.id)).length = input.memberIDs.length ∧
    (∀ s ∈ st2.splits.filter (fun s => s.expenseID == e.id),
      s.amountDue = input.amount / (input.memberIDs.length : ℚ)) ∧
    ((st2.splits.filter (fun s => s.expenseID == e.id)).map (fun s => s.amountDue)).sum
      = input.amount := by
  rcases AddExpense_ok st c g input fails e st2 hok with ⟨h1, h2, he, hst⟩
  have hn : 1 ≤ input.memberIDs.length := (bindAddExpense_fields h2).2
  subst he hst
  have hid : (⟨st.nextExpenseID, g, input.payerID, input.amount, input.description,
      input.date⟩ : Expense).id = st.nextExpenseID := rfl
  rw [hid, addStore_newSplits st g input hWF]
  refine ⟨by rw [List.length_map], ?_, ?_⟩
  · intro s hs
    rcases List.mem_map.mp hs with ⟨m, _, rfl⟩
    rfl
  · rw [splitShare_sum, mul_comm]
    exact div_mul_cancel₀ input.amount
      (by simp only [ne_eq, Nat.cast_eq_zero]; omega)

/-- C4: a settlement naming payer = receiver is rejected with a validation
    error and the store is unchanged; one naming a non-member payer or
    receiver is rejected with the validation error naming that side, store
    unchanged; a successful settlement moves the payer balance by exactly
    -amount and the receiver balance by exactly +amount and no other balance
    changes. -/
theorem C4_settlement (st : Store) (c g : Nat) (input : AddSettlementInput) (now : Nat)
    (fail : Bool) (h1 : hasMembership st c g = true)
    (h2 : bindAddSettlement input = true) :
    (input.payerID = input.receiverID →
      RecordSettlement st c g input now fail
        = (.error (.badRequest "Payer and receiver cannot be the same"), st)) ∧
    (input.payerID ≠ input.receiverID → hasMembership st input.payerID g = false →
      RecordSettlement st c g input now fail
        = (.error (.badRequest "Payer is not a member of this group"), st)) ∧
    (input.payerID ≠ input.receiverID → hasMembership st input.payerID g = true →
      hasMembership st input.receiverID g = false →
      RecordSettlement st c g input now fail
        = (.error (.badRequest "Receiver is not a member of this group"), st)) ∧
    (∀ t st2, RecordSettlement st c g input now fail = (.ok t, st2) →
      ∀ u, groupBalances st2 g u
        = groupBalances st g u + (if input.receiverID = u then input.amount else 0)
            - (if input.payerID = u then input.amount else 0)) := by
  refine ⟨?_, ?_, ?_, ?_⟩
  · intro hpr
    unfold RecordSettlement
    rw [if_pos h1, if_pos h2, if_pos (by simpa using hpr)]
  · intro hpr hp
    unfold RecordSettlement
    rw [if_pos h1, if_pos h2, if_neg (by simpa using hpr), if_neg (by simp [hp])]
  · intro hpr hp hr
    unfold RecordSettlement
    rw [if_pos h1, if_pos h2, if_neg (by simpa using hpr), if_pos hp,
      if_neg (by simp [hr])]
  · intro t st2 hok u
    rcases RecordSettlement_ok st c g input now fail t st2 hok with
      ⟨_, _, _, _, _, _, hst⟩
    subst hst
    exact settle_balances st g input now u

/-- C5: whenever any split write of the creation transaction is scheduled to
    fail, AddExpense reports an error and the store afterwards is identical
    to the store before the call: the expense row and every split row are
    rolled back. -/
theorem C5_rollback (st : Store) (c g : Nat) (input : AddExpenseInput) (fails : List Nat)
    (hf : ∃ i ∈ fails, 1 ≤ i ∧ i ≤ input.memberIDs.length) :
    (∃ err, (AddExpense st c g input fails).1 = .error err) ∧
    (AddExpense st c g input fails).2 = st := by
  unfold AddExpense
  by_cases h1 : hasMembership st c g = true
  case neg => rw [if_neg h1]; exact ⟨⟨_, rfl⟩, rfl⟩
  rw [if_pos h1]
  by_cases h2 : bindAddExpense input = true
  case neg => rw [if_neg h2]; exact ⟨⟨_, rfl⟩, rfl⟩
  rw [if_pos h2]
  by_cases h3 : (0 : Nat) ∈ fails
  case pos => rw [if_pos h3]; exact ⟨⟨_, rfl⟩, rfl⟩
  rw [if_neg h3]
  rcases hf with ⟨i, hi, h1i, hin⟩
  rw [createSplits_fail _ _ fails input.memberIDs _ 1 i hi h1i (by omega)]
  exact ⟨⟨_, rfl⟩, rfl⟩

/-- C6: a successful edit leaves for the edited expense exactly one split row
    per new participant, each recomputed from the new amount (none from the
    old amount or participant set), and overwrites the expense fields; every
    failing edit rolls the store back unchanged. -/
theorem C6_edit_replaces (st : Store) (c g eid : Nat) (input : AddExpenseInput)
    (fails : List Nat) :
    (∀ e1 st2, EditExpense st c g eid input fails = (.ok e1, st2) →
      st2.splits.filter (fun s => s.expenseID == eid)
          = input.memberIDs.map
            (fun m => ⟨eid, m, input.amount / (input.memberIDs.length : ℚ)⟩) ∧
      (st2.splits.filter (fun s => s.expenseID == eid)).length
          = input.memberIDs.length ∧
      e1.payerID = input.payerID ∧ e1.amount = input.amount ∧
      e1.description = input.description ∧ e1.date = input.date) ∧
    (∀ err st2, EditExpense st c g eid input fails = (.error err, st2) → st2 = st) := by
  constructor
  · intro e1 st2 hok
    rcases EditExpense_ok st c g eid input fails e1 st2 hok with ⟨e0, _, _, _, he1, hst⟩
    subst he1 hst
    refine ⟨editStore_splits st eid e0 input, ?_, rfl, rfl, rfl, rfl⟩
    rw [editStore_splits st eid e0 input, List.length_map]
  · intro err st2 herr
    exact EditExpense_err st c g eid input fails err st2 herr

/-- C7: a successful delete removes the expense row and every split row of
    the expense, and the debts GetGroupDebts then reports coincide with those
    of any store whose ledger is the original one with that expense and its
    splits erased. -/
theorem C7_delete_total (st : Store) (c g eid : Nat) (fails : List Nat) (st2 : Store)
    (hok : DeleteExpense st c g eid fails = (.ok (), st2)) :
    (∀ e ∈ st2.expenses, e.id ≠ eid) ∧ (∀ s ∈ st2.splits, s.expenseID ≠ eid) ∧
    (∀ st3 : Store, st3.users = st.users → st3.memberships = st.memberships →
      st3.expenses = st.expenses.filter (fun e => e.id != eid) →
      st3.splits = st.splits.filter (fun s => s.expenseID != eid) →
      st3.settlements = st.settlements →
      ∀ c2, GetGroupDebts st2 c2 g = GetGroupDebts st3 c2 g) := by
  rcases DeleteExpense_ok st c g eid fails st2 hok with ⟨_, hst⟩
  subst hst
  refine ⟨?_, ?_, ?_⟩
  · intro e he
    simp only [deleteStore] at he
    have he2 := (List.mem_filter.mp he).2
    simpa using he2
  · intro s hs
    simp only [deleteStore] at hs
    have hs2 := (List.mem_filter.mp hs).2
    simpa using hs2
  · intro st3 hU hM hE hS hT c2
    exact GetGroupDebts_congr (deleteStore st eid) st3 hU.symm hM.symm hE.symm hS.symm
      hT.symm c2 g

/-- C8: for a caller who is a group member, the history contains exactly one
    projected item per group expense and one per group settlement (the
    expense dated by its recorded date, the settlement by its creation
    timestamp), and every adjacent pair of returned items is ordered with the
    later effective date first. -/
theorem C8_history (st : Store) (c g : Nat) (h : hasMembership st c g = true) :
    ∃ l, GetGroupHistory st c g = .ok l ∧
      List.Perm l ((st.expenses.filter (fun e => e.groupID == g)).map (expenseItem st)
        ++ (st.settlements.filter (fun t => t.groupID == g)).map (settlementItem st)) ∧
      l.Chain' (fun a b => b.date ≤ a.date) := by
  unfold GetGroupHistory
  rw [if_pos h]
  refine ⟨_, rfl, List.perm_insertionSort histLE _, ?_⟩
  exact List.Pairwise.chain' (List.sorted_insertionSort histLE _)

/-- C9 (amended): provided the submitted participant list has no duplicate
    member ids, a successful create or edit leaves the expense with exactly
    one split row per listed participant, in list order, and no split row
    naming a debtor outside the list.  The no-duplicates proviso is forced:
    the handlers write one split row per list entry without deduplication, so
    a duplicated id yields two split rows for the same debtor (see the
    counterexample). -/
theorem C9_split_cover_nodup (st : Store) (c g eid : Nat) (input : AddExpenseInput)
    (fails : List Nat) (hWF : WF st) (hnd : input.memberIDs.Nodup) :
    (∀ e st2, AddExpense st c g input fails = (.ok e, st2) →
      (st2.splits.filter (fun s => s.expenseID == e.id)).map (fun s => s.debtorID)
          = input.memberIDs ∧
      ((st2.splits.filter (fun s => s.expenseID == e.id)).map
        (fun s => s.debtorID)).Nodup) ∧
    (∀ e1 st2, EditExpense st c g eid input fails = (.ok e1, st2) →
      (st2.splits.filter (fun s => s.expenseID == eid)).map (fun s => s.debtorID)
          = input.memberIDs ∧
      ((st2.splits.filter (fun s => s.expenseID == eid)).map
        (fun s => s.debtorID)).Nodup) := by
  have hmm : ∀ (k : Nat) (share : ℚ), ((input.memberIDs.map
      (fun m => (⟨k, m, share⟩ : Split))).map (fun s => s.debtorID))
      = input.memberIDs := by
    intro k share
    rw [List.map_map]
    simp [Function.comp_def]
  constructor
  · intro e st2 hok
    rcases AddExpense_ok st c g input fails e st2 hok with ⟨_, _, he, hst⟩
    subst he hst
    have hid : (⟨st.nextExpenseID, g, input.payerID, input.amount, input.description,
        input.date⟩ : Expense).id = st.nextExpenseID := rfl
    rw [hid, addStore_newSplits st g input hWF, hmm]
    exact ⟨rfl, hnd⟩
  · intro e1 st2 hok
    rcases EditExpense_ok st c g eid input fails e1 st2 hok with ⟨e0, _, _, _, _, hst⟩
    subst hst
    rw [editStore_splits st eid e0 input, hmm]
    exact ⟨rfl, hnd⟩

/-! ### Concrete stores for witnesses and counterexamples -/

/-- Group 1 owned by member 1; users 2 and 3 exist but hold no membership. -/
def baseStore : Store :=
  ⟨[⟨1, "alice"⟩, ⟨2, "bob"⟩, ⟨3, "carol"⟩], [⟨1, "trip", 1⟩], [⟨1, 1⟩],
    [], [], [], 2, 1, 1⟩

theorem wfBase : WF baseStore :=
  ⟨by decide, by decide, by decide, by decide, by decide⟩

/-- Scenario A of the specification: three members, one 300 expense split
    three ways. -/
def scnA : Store :=
  ⟨[⟨1, "alice"⟩, ⟨2, "bob"⟩, ⟨3, "carol"⟩], [⟨1, "trip", 1⟩],
    [⟨1, 1⟩, ⟨2, 1⟩, ⟨3, 1⟩],
    [⟨1, 1, 1, 300, "dinner", 20240101⟩],
    [⟨1, 1, 100⟩, ⟨1, 2, 100⟩, ⟨1, 3, 100⟩], [], 2, 2, 1⟩

/-- Two members, one 100 expense split two ways, ready to be edited. -/
def editBase : Store :=
  ⟨[⟨1, "alice"⟩, ⟨2, "bob"⟩, ⟨3, "carol"⟩], [⟨1, "trip", 1⟩], [⟨1, 1⟩, ⟨2, 1⟩],
    [⟨1, 1, 1, 100, "d", 1⟩], [⟨1, 1, 50⟩, ⟨1, 2, 50⟩], [], 2, 2, 1⟩

/-- Scenario D of the specification: an expense dated 20240101 and a
    settlement created 20240102 in the same group. -/
def histStore : Store :=
  ⟨[⟨1, "alice"⟩], [⟨1, "trip", 1⟩], [⟨1, 1⟩],
    [⟨1, 1, 1, 50, "d", 20240101⟩], [⟨1, 1, 50⟩],
    [⟨1, 1, 1, 2, 30, 20240102⟩], 2, 2, 2⟩

unseal Rat.mul Rat.add Rat.sub Rat.inv in
/-- C10: expense create and edit perform no group-membership check on the
    payer id or the participant member ids: requests by the authenticated
    member 1 naming the non-members 2 and 3 succeed and persist the Expense
    and Split rows, while GetGroupDebts lists one entry per member only, so
    the amounts booked against user 2 are absent from its output. -/
theorem C10_no_membership_check :
    hasMembership baseStore 2 1 = false ∧ hasMembership baseStore 3 1 = false ∧
    (AddExpense baseStore 1 1 ⟨"d", 100, 2, 1, [2]⟩ []).1 = .ok ⟨1, 1, 2, 100, "d", 1⟩ ∧
    (AddExpense baseStore 1 1 ⟨"d", 100, 2, 1, [2]⟩ []).2.expenses
        = [⟨1, 1, 2, 100, "d", 1⟩] ∧
    (AddExpense baseStore 1 1 ⟨"d", 100, 2, 1, [2]⟩ []).2.splits = [⟨1, 2, 100⟩] ∧
    (EditExpense (AddExpense baseStore 1 1 ⟨"d", 100, 2, 1, [2]⟩ []).2 1 1 1
        ⟨"e", 80, 3, 2, [3]⟩ []).1 = .ok ⟨1, 1, 3, 80, "e", 2⟩ ∧
    GetGroupDebts (AddExpense baseStore 1 1 ⟨"d", 100, 2, 1, [2]⟩ []).2 1 1
        = .ok [⟨1, "alice", 0⟩] ∧
    (∀ d ∈ [(⟨1, "alice", 0⟩ : DebtSummary)], d.userID ≠ 2) :=
  ⟨by decide, by decide, by rfl, by rfl, by rfl, by rfl, by rfl, by decide⟩

/-! ### Witnesses and counterexamples -/

def opsC1 : List Op := [.addExpense 1 1 ⟨"dinner", 100, 1, 20240101, [1]⟩ []]

unseal Rat.mul Rat.add Rat.sub Rat.inv in
theorem C1_conservation_witness :
    WF baseStore ∧
    (∀ e ∈ groupExpenses (run baseStore opsC1) 1,
      hasMembership (run baseStore opsC1) e.payerID 1 = true) ∧
    (∀ s ∈ groupSplits (run baseStore opsC1) 1,
      hasMembership (run baseStore opsC1) s.debtorID 1 = true) ∧
    GetGroupDebts (run baseStore opsC1) 1 1 = .ok [⟨1, "alice", 0⟩] ∧
    (([(⟨1, "alice", 0⟩ : DebtSummary)]).map (fun d => d.balance)).sum = 0 :=
  ⟨wfBase, by decide, by decide, by rfl,
    C1_conservation baseStore opsC1 1 wfBase (by decide) (by decide) 1
      [⟨1, "alice", 0⟩] (by rfl)⟩

def opsC1cex : List Op := [.addExpense 1 1 ⟨"dinner", 100, 2, 20240101, [1]⟩ []]

unseal Rat.mul Rat.add Rat.sub Rat.inv in
/-- The claim as stated fails: member 1 creates an expense whose payer is the
    non-member 2, a sequence of engine requests after which the member
    balances returned by GetGroupDebts sum to -100, not 0. -/
theorem C1_counterexample :
    GetGroupDebts (run baseStore opsC1cex) 1 1 = .ok [⟨1, "alice", -100⟩] ∧
    ¬ ((([(⟨1, "alice", -100⟩ : DebtSummary)]).map (fun d => d.balance)).sum = 0) :=
  ⟨by rfl, by decide⟩

theorem C2_reference_reduction_witness :
    hasMembership scnA 1 1 = true ∧
    GetGroupDebts scnA 1 1 = .ok (refDebts scnA 1) :=
  ⟨by decide, C2_reference_reduction scnA 1 1 (by decide)⟩

def inC3 : AddExpenseInput := ⟨"lunch", 9, 1, 20240101, [1, 2, 3]⟩

unseal Rat.mul Rat.add Rat.sub Rat.inv in
theorem C3_split_coverage_witness :
    AddExpense baseStore 1 1 inC3 []
        = (.ok ⟨1, 1, 1, 9, "lunch", 20240101⟩, (AddExpense baseStore 1 1 inC3 []).2) ∧
    (((AddExpense baseStore 1 1 inC3 []).2.splits.filter
        (fun s => s.expenseID == (⟨1, 1, 1, 9, "lunch", 20240101⟩ : Expense).id)).length
        = inC3.memberIDs.length ∧
      (∀ s ∈ (AddExpense baseStore 1 1 inC3 []).2.splits.filter
          (fun s => s.expenseID == (⟨1, 1, 1, 9, "lunch", 20240101⟩ : Expense).id),
        s.amountDue = inC3.amount / (inC3.memberIDs.length : ℚ)) ∧
      (((AddExpense baseStore 1 1 inC3 []).2.splits.filter
          (fun s => s.expenseID == (⟨1, 1, 1, 9, "lunch", 20240101⟩ : Expense).id)).map
        (fun s => s.amountDue)).sum = inC3.amount) :=
  ⟨by rfl, C3_split_coverage baseStore 1 1 inC3 [] ⟨1, 1, 1, 9, "lunch", 20240101⟩
    (AddExpense baseStore 1 1 inC3 []).2 wfBase (by rfl)⟩

def inC4 : AddSettlementInput := ⟨2, 1, 100⟩

unseal Rat.mul Rat.add Rat.sub Rat.inv in
theorem C4_settlement_witness :
    hasMembership scnA 1 1 = true ∧ bindAddSettlement inC4 = true ∧
    (∀ u, groupBalances (RecordSettlement scnA 1 1 inC4 5 false).2 1 u
      = groupBalances scnA 1 u + (if inC4.receiverID = u then inC4.amount else 0)
          - (if inC4.payerID = u then inC4.amount else 0)) :=
  ⟨by decide, by decide,
    (C4_settlement scnA 1 1 inC4 5 false (by decide) (by decide)).2.2.2
      ⟨1, 1, 2, 1, 100, 5⟩ (RecordSettlement scnA 1 1 inC4 5 false).2 (by rfl)⟩

def inC5 : AddExpenseInput := ⟨"x", 10, 1, 1, [1]⟩

unseal Rat.mul Rat.add Rat.sub Rat.inv in
theorem C5_rollback_witness :
    (∃ i ∈ ([1] : List Nat), 1 ≤ i ∧ i ≤ inC5.memberIDs.length) ∧
    ((∃ err, (AddExpense baseStore 1 1 inC5 [1]).1 = .error err) ∧
      (AddExpense baseStore 1 1 inC5 [1]).2 = baseStore) :=
  ⟨by decide, C5_rollback baseStore 1 1 inC5 [1] (by decide)⟩

def inC6 : AddExpenseInput := ⟨"d", 90, 1, 2, [1, 2, 3]⟩

unseal Rat.mul Rat.add Rat.sub Rat.inv in
theorem C6_edit_replaces_witness :
    EditExpense editBase 1 1 1 inC6 []
        = (.ok ⟨1, 1, 1, 90, "d", 2⟩, (EditExpense editBase 1 1 1 inC6 []).2) ∧
    ((EditExpense editBase 1 1 1 inC6 []).2.splits.filter (fun s => s.expenseID == 1)
        = inC6.memberIDs.map
          (fun m => ⟨1, m, inC6.amount / (inC6.memberIDs.length : ℚ)⟩) ∧
      ((EditExpense editBase 1 1 1 inC6 []).2.splits.filter
        (fun s => s.expenseID == 1)).length = inC6.memberIDs.length ∧
      (⟨1, 1, 1, 90, "d", 2⟩ : Expense).payerID = inC6.payerID ∧
      (⟨1, 1, 1, 90, "d", 2⟩ : Expense).amount = inC6.amount ∧
      (⟨1, 1, 1, 90, "d", 2⟩ : Expense).description = inC6.description ∧
      (⟨1, 1, 1, 90, "d", 2⟩ : Expense).date = inC6.date) :=
  ⟨by rfl, (C6_edit_replaces editBase 1 1 1 inC6 []).1 ⟨1, 1, 1, 90, "d", 2⟩
    (EditExpense editBase 1 1 1 inC6 []).2 (by rfl)⟩

/-- The erased-ledger variant of `editBase`: expense 1 and its splits never
    existed; the inert fields (groups, id counters) deliberately differ. -/
def st3C7 : Store :=
  ⟨[⟨1, "alice"⟩, ⟨2, "bob"⟩, ⟨3, "carol"⟩], [], [⟨1, 1⟩, ⟨2, 1⟩],
    [], [], [], 7, 7, 7⟩

unseal Rat.mul Rat.add Rat.sub Rat.inv in
theorem C7_delete_total_witness :
    DeleteExpense editBase 1 1 1 [] = (.ok (), (DeleteExpense editBase 1 1 1 []).2) ∧
    GetGroupDebts (DeleteExpense editBase 1 1 1 []).2 1 1 = GetGroupDebts st3C7 1 1 :=
  ⟨by rfl,
    (C7_delete_total editBase 1 1 1 [] (DeleteExpense editBase 1 1 1 []).2 (by rfl)).2.2
      st3C7 (by rfl) (by rfl) (by rfl) (by rfl) (by rfl) 1⟩

theorem C8_history_witness :
    hasMembership histStore 1 1 = true ∧
    (∃ l, GetGroupHistory histStore 1 1 = .ok l ∧
      List.Perm l ((histStore.expenses.filter (fun e => e.groupID == 1)).map
          (expenseItem histStore)
        ++ (histStore.settlements.filter (fun t => t.groupID == 1)).map
          (settlementItem histStore)) ∧
      l.Chain' (fun a b => b.date ≤ a.date)) :=
  ⟨by decide, C8_history histStore 1 1 (by decide)⟩

def inC9w : AddExpenseInput := ⟨"x", 10, 1, 1, [1, 2]⟩

unseal Rat.mul Rat.add Rat.sub Rat.inv in
theorem C9_split_cover_nodup_witness :
    inC9w.memberIDs.Nodup ∧
    (((AddExpense baseStore 1 1 inC9w []).2.splits.filter
        (fun s => s.expenseID == (⟨1, 1, 1, 10, "x", 1⟩ : Expense).id)).map
        (fun s => s.debtorID) = inC9w.memberIDs ∧
      (((AddExpense baseStore 1 1 inC9w []).2.splits.filter
        (fun s => s.expenseID == (⟨1, 1, 1, 10, "x", 1⟩ : Expense).id)).map
        (fun s => s.debtorID)).Nodup) :=
  ⟨by decide,
    (C9_split_cover_nodup baseStore 1 1 0 inC9w [] wfBase (by decide)).1
      ⟨1, 1, 1, 10, "x", 1⟩ (AddExpense baseStore 1 1 inC9w []).2 (by rfl)⟩

unseal Rat.mul Rat.add Rat.sub Rat.inv in
/-- The claim as stated fails: a create whose participant list repeats member
    1 succeeds and writes two Split rows naming debtor 1 for the one
    expense. -/
theorem C9_counterexample :
    (AddExpense baseStore 1 1 ⟨"x", 10, 1, 1, [1, 1]⟩ []).1
        = .ok ⟨1, 1, 1, 10, "x", 1⟩ ∧
    ¬ (((AddExpense baseStore 1 1 ⟨"x", 10, 1, 1, [1, 1]⟩ []).2.splits.filter
        (fun s => s.expenseID == 1 && s.debtorID == 1)).length ≤ 1) :=
  ⟨by rfl, by decide⟩

end ClearUp
